import Mathlib

/-!
Shallow embedding of the garden-dashboard bed layout and planting-calendar
logic (Express route handlers over SQLite), together with theorems checking
the specification's claims about it.

The embedding mirrors the JavaScript/SQL source:
* placements, beds, companion relationships and planting windows are records
  with the columns the handlers read;
* SQL `WHERE` clauses become Bool predicates on those records;
* JavaScript object mutation (the water-needs tally) is modelled with an
  association list whose values may be NaN, matching `obj[key]++` semantics;
* handlers that can reject a request become functions into `Except`.
-/

namespace Garden

/-- A row of `bed_placements` joined with its plant, as the bed analysis
query (`SELECT bp.*, p.name as plant_name, ...`) loads it. -/
structure Placement where
  id : Nat
  plant_id : Nat
  plant_name : String
  plant_variety : Option String
  water_needs : Option String
  row : Int
  col : Int
  deriving DecidableEq, Repr

/-- A row of `companion_relationships`. -/
structure Relationship where
  plant_name_a : String
  plant_name_b : String
  relationship : String
  notes : Option String
  deriving DecidableEq, Repr

/-- The grid dimensions of a `beds` row. -/
structure Bed where
  rows : Int
  cols : Int
  deriving DecidableEq, Repr

/-! ## Planting-window membership (GET /api/plants/plant-now)

The SQL `WHERE` clause is
`(pw.start_month <= pw.end_month AND ? BETWEEN pw.start_month AND pw.end_month)
 OR (pw.start_month > pw.end_month AND (? >= pw.start_month OR ? <= pw.end_month))`
with the current month bound to every `?`. -/

/-- The plant-now window-membership predicate, transcribed from the SQL
`WHERE` clause of `GET /api/plants/plant-now`. -/
def isInWindow (startM endM month : Int) : Bool :=
  (decide (startM ≤ endM) && decide (startM ≤ month) && decide (month ≤ endM))
    || (decide (startM > endM) && (decide (month ≥ startM) || decide (month ≤ endM)))

/-- C2: window membership is the branch-free disjunction the spec states:
for a non-wrapping window it is the closed interval test, for a wrapping
window the wrap-around disjunction; window(4,7) holds exactly on months
4..7 and window(10,2) exactly on months 10,11,12,1,2. -/
theorem isInWindow_spec :
    (∀ startM endM month : Int,
      isInWindow startM endM month = true ↔
        (if startM ≤ endM then startM ≤ month ∧ month ≤ endM
         else month ≥ startM ∨ month ≤ endM)) ∧
    ((List.range 12).map (fun i => isInWindow 4 7 (i + 1 : Int)) =
      [false, false, false, true, true, true, true, false, false, false, false, false]) ∧
    ((List.range 12).map (fun i => isInWindow 10 2 (i + 1 : Int)) =
      [true, true, false, false, false, false, false, false, false, true, true, true]) := by
  refine ⟨fun startM endM month => ?_, by decide, by decide⟩
  unfold isInWindow
  by_cases h : startM ≤ endM
  · simp [h, not_lt.mpr h]
  · simp [h, lt_of_not_le h]

/-! ## Bed analysis: adjacency and companion issues (GET /api/beds/:id)

The handler loops `for i` / `for j = i+1` over the placement list, tests
8-directional adjacency, looks the pair's relationship up by plant name in
either stored order, and pushes an issue when the relationship is `bad`. -/

/-- Adjacency test from the bed-analysis loop:
`rowDiff <= 1 && colDiff <= 1 && !(rowDiff === 0 && colDiff === 0)`
where the diffs are absolute values. -/
def isAdjacent (p1 p2 : Placement) : Bool :=
  let rowDiff := (p1.row - p2.row).natAbs
  let colDiff := (p1.col - p2.col).natAbs
  decide (rowDiff ≤ 1) && decide (colDiff ≤ 1)
    && !(decide (rowDiff = 0) && decide (colDiff = 0))

/-- The companion-relationship query:
`WHERE (plant_name_a = ? AND plant_name_b = ?) OR (plant_name_a = ? AND plant_name_b = ?)`
bound to `(n1, n2, n2, n1)`; `.get` returns the first matching row. -/
def lookupRelationship (rels : List Relationship) (n1 n2 : String) : Option Relationship :=
  rels.find? (fun r =>
    (r.plant_name_a == n1 && r.plant_name_b == n2)
      || (r.plant_name_a == n2 && r.plant_name_b == n1))

/-- The `relationship && relationship.relationship === 'bad'` test of the
analysis loop. -/
def isBadPair (rels : List Relationship) (n1 n2 : String) : Bool :=
  match lookupRelationship rels n1 n2 with
  | some r => r.relationship == "bad"
  | none => false

/-- The per-placement record embedded in an issue
(`{ id, name, variety, row, col }`). -/
structure IssueParty where
  id : Nat
  name : String
  variety : Option String
  row : Int
  col : Int
  deriving DecidableEq, Repr

/-- One entry of the `companion_issues` array. -/
structure CompanionIssue where
  plant1 : IssueParty
  plant2 : IssueParty
  reason : Option String
  deriving DecidableEq, Repr

def issueParty (p : Placement) : IssueParty :=
  ⟨p.id, p.plant_name, p.plant_variety, p.row, p.col⟩

/-- Body of the inner analysis loop for one pair `(p1, p2)`: emit an issue
iff the pair is adjacent and its stored relationship is `bad`. -/
def issueFor (rels : List Relationship) (p1 p2 : Placement) : Option CompanionIssue :=
  if isAdjacent p1 p2 then
    match lookupRelationship rels p1.plant_name p2.plant_name with
    | some r =>
        if r.relationship = "bad"
        then some ⟨issueParty p1, issueParty p2, r.notes⟩
        else none
    | none => none
  else none

/-- The `for i, for j in i+1..` double loop enumerates, in order, each list
element paired with every later element. -/
def pairsAfter {α : Type} : List α → List (α × α)
  | [] => []
  | x :: xs => xs.map (fun y => (x, y)) ++ pairsAfter xs

/-- `companion_issues` as computed by `GET /api/beds/:id`. -/
def companionIssues (rels : List Relationship) (ps : List Placement) :
    List CompanionIssue :=
  (pairsAfter ps).filterMap (fun pq => issueFor rels pq.1 pq.2)

/-- The length of a `filterMap` counts the inputs the function keeps. -/
theorem length_filterMap_eq_countP {α β : Type} (f : α → Option β) (l : List α) :
    (l.filterMap f).length = l.countP (fun a => (f a).isSome) := by
  induction l with
  | nil => rfl
  | cons x xs ih =>
    cases h : f x <;>
      simp [List.filterMap_cons, h, List.countP_cons, ih]

/-- `countP` as a sum of indicators over positions. -/
theorem countP_eq_sum_fin {α : Type} (p : α → Bool) (l : List α) :
    l.countP p = ∑ i : Fin l.length, if p (l.get i) then 1 else 0 := by
  induction l with
  | nil => simp
  | cons x xs ih =>
    rw [List.countP_cons, ih]
    simp only [List.length_cons, Fin.sum_univ_succ, List.get_eq_getElem,
      Fin.val_succ, Fin.val_zero, List.getElem_cons_zero, List.getElem_cons_succ]
    omega

/-- Counting kept pairs of the `i < j` double loop equals counting index
pairs `i < j` whose elements satisfy the predicate. -/
theorem pairsAfter_countP {α : Type} (Q : α → α → Bool) (l : List α) :
    (pairsAfter l).countP (fun pq => Q pq.1 pq.2) =
      ∑ i : Fin l.length, ∑ j : Fin l.length,
        if i < j ∧ Q (l.get i) (l.get j) = true then 1 else 0 := by
  induction l with
  | nil => simp [pairsAfter]
  | cons x xs ih =>
    rw [pairsAfter, List.countP_append]
    have hmap : (xs.map (fun y => (x, y))).countP (fun pq => Q pq.1 pq.2)
        = xs.countP (fun y => Q x y) := by
      rw [List.countP_map]; rfl
    rw [hmap, ih, countP_eq_sum_fin]
    simp only [List.length_cons, Fin.sum_univ_succ, List.get_eq_getElem,
      Fin.val_succ, Fin.val_zero, List.getElem_cons_zero, List.getElem_cons_succ]
    simp [Fin.succ_pos, Fin.succ_lt_succ_iff]

/-- C1: the bed analysis emits exactly one companion issue per index pair
`i < j` of placements that are Chebyshev-adjacent with a stored `bad`
relationship; any other pair (non-adjacent, no relationship, or a
`good`/`neutral` relationship) contributes nothing. The spec example holds:
Tomato at (0,0) and Fennel at (0,1) with a stored `bad` relationship give
exactly one issue, and the same plants at (0,0) and (2,2) give none. -/
theorem companionIssues_count :
    (∀ (rels : List Relationship) (ps : List Placement),
      (companionIssues rels ps).length =
        (Finset.univ.filter (fun ij : Fin ps.length × Fin ps.length =>
          ij.1 < ij.2 ∧
            (isAdjacent (ps.get ij.1) (ps.get ij.2)
              && isBadPair rels (ps.get ij.1).plant_name (ps.get ij.2).plant_name)
              = true)).card) ∧
    companionIssues [⟨"Tomato", "Fennel", "bad", some "inhibits growth"⟩]
        [⟨1, 10, "Tomato", none, some "high", 0, 0⟩,
         ⟨2, 11, "Fennel", none, some "low", 0, 1⟩] =
      [⟨⟨1, "Tomato", none, 0, 0⟩, ⟨2, "Fennel", none, 0, 1⟩, some "inhibits growth"⟩] ∧
    companionIssues [⟨"Tomato", "Fennel", "bad", some "inhibits growth"⟩]
        [⟨1, 10, "Tomato", none, some "high", 0, 0⟩,
         ⟨2, 11, "Fennel", none, some "low", 2, 2⟩] = [] := by
  refine ⟨fun rels ps => ?_, by decide, by decide⟩
  have hpt : ∀ p q : Placement,
      (issueFor rels p q).isSome =
        (isAdjacent p q && isBadPair rels p.plant_name q.plant_name) := by
    intro p q
    unfold issueFor isBadPair
    cases ha : isAdjacent p q <;>
      cases hl : lookupRelationship rels p.plant_name q.plant_name <;>
        simp [ha, hl]
    split <;> simp_all
  rw [companionIssues, length_filterMap_eq_countP]
  have : (fun pq : Placement × Placement => (issueFor rels pq.1 pq.2).isSome) =
      fun pq => isAdjacent pq.1 pq.2 && isBadPair rels pq.1.plant_name pq.2.plant_name := by
    funext pq; exact hpt pq.1 pq.2
  rw [this,
    pairsAfter_countP
      (fun a b => isAdjacent a b && isBadPair rels a.plant_name b.plant_name) ps,
    Finset.card_filter, Fintype.sum_prod_type]

/-! ## Bed analysis: water-needs tally and conflict flag

`const waterNeedsCounts = { low: 0, medium: 0, high: 0 };`
`placements.forEach(p => { if (p.water_needs) waterNeedsCounts[p.water_needs]++; });`
`const hasWaterConflict = waterNeedsCounts.low > 0 && waterNeedsCounts.high > 0;`

JavaScript object semantics matter here: `obj[k]++` on a key the object does
not have stores `undefined + 1 = NaN` under a new key, so the tally object
is modelled as an association list whose values are integers or NaN. -/

/-- A JavaScript number as the tally stores one: an integer or `NaN`. -/
inductive JsNum : Type
  | int (n : Int)
  | nan
  deriving DecidableEq, Repr

/-- Effect of `++` on a stored value: integers increment, `NaN` stays `NaN`. -/
def JsNum.incr : JsNum → JsNum
  | .int n => .int (n + 1)
  | .nan => .nan

/-- The comparison `v > 0` on a JavaScript number; `NaN > 0` is false. -/
def JsNum.gtZero : JsNum → Bool
  | .int n => decide (0 < n)
  | .nan => false

/-- Property read `obj[k]`: the first entry under that key, or `undefined`. -/
def getProp (acc : List (String × JsNum)) (k : String) : Option JsNum :=
  (acc.find? (fun e => e.1 == k)).map (fun e => e.2)

/-- Property write `obj[k]++`: an existing key is incremented in place; a
missing key is created holding `undefined + 1 = NaN`. -/
def bump (acc : List (String × JsNum)) (k : String) : List (String × JsNum) :=
  if acc.any (fun e => e.1 == k) then
    acc.map (fun e => if e.1 == k then (e.1, e.2.incr) else e)
  else
    acc ++ [(k, JsNum.nan)]

/-- One step of the `forEach` loop: a missing (`NULL`) or empty `water_needs`
is falsy and skipped, any other value is bumped. -/
def tallyStep (acc : List (String × JsNum)) (p : Placement) :
    List (String × JsNum) :=
  match p.water_needs with
  | some s => if s = "" then acc else bump acc s
  | none => acc

/-- The `waterNeedsCounts` object built by `GET /api/beds/:id`. -/
def waterNeedsCounts (ps : List Placement) : List (String × JsNum) :=
  ps.foldl tallyStep [("low", .int 0), ("medium", .int 0), ("high", .int 0)]

/-- `obj.low > 0` where the property may be `undefined`: false then. -/
def jsMoreThanZero (o : Option JsNum) : Bool :=
  match o with
  | some v => v.gtZero
  | none => false

/-- The `has_water_conflict` flag of the bed analysis. -/
def hasWaterConflict (ps : List Placement) : Bool :=
  jsMoreThanZero (getProp (waterNeedsCounts ps) "low")
    && jsMoreThanZero (getProp (waterNeedsCounts ps) "high")

/-- `find?` by key commutes with a map that preserves keys. -/
theorem find?_map_keyPres (f : String × JsNum → String × JsNum)
    (hf : ∀ e, (f e).1 = e.1) (l : List (String × JsNum)) (k : String) :
    (l.map f).find? (fun e => e.1 == k) =
      (l.find? (fun e => e.1 == k)).map f := by
  induction l with
  | nil => rfl
  | cons e l ih =>
    rw [List.map_cons, List.find?_cons, List.find?_cons]
    have hfe : ((f e).1 == k) = (e.1 == k) := by rw [hf]
    cases he : (e.1 == k) with
    | true => simp [hfe, he]
    | false => simp [hfe, he, ih]

/-- Appending an entry under a different key does not change a key lookup. -/
theorem find?_append_other (l : List (String × JsNum)) (s k : String)
    (h : (s == k) = false) :
    (l ++ [(s, JsNum.nan)]).find? (fun e => e.1 == k) =
      l.find? (fun e => e.1 == k) := by
  induction l with
  | nil => simp [List.find?_cons, h]
  | cons e l ih =>
    rw [List.cons_append, List.find?_cons, List.find?_cons]
    cases he : (e.1 == k) with
    | true => simp [he]
    | false => simp [he, ih]

/-- Bumping one key leaves every other key's value unchanged. -/
theorem getProp_bump_ne (acc : List (String × JsNum)) (s k : String)
    (hne : (s == k) = false) :
    getProp (bump acc s) k = getProp acc k := by
  unfold bump
  by_cases hany : (acc.any fun e => e.1 == s) = true
  · rw [if_pos hany]
    unfold getProp
    rw [find?_map_keyPres (fun e => if e.1 == s then (e.1, e.2.incr) else e)
      (fun e => by cases hc : (e.1 == s) <;> simp [hc]) acc k]
    cases hfind : acc.find? (fun e => e.1 == k) with
    | none => rfl
    | some e =>
        have hek : (e.1 == k) = true := by simpa using List.find?_some hfind
        have hes : (e.1 == s) = false := by
          have h1 : e.1 = k := by simpa using hek
          have h2 : ¬s = k := by simpa using hne
          simp [h1]
          exact fun hsk => h2 hsk.symm
        have hes2 : ¬e.1 = s := by simpa using hes
        simp [hes2]
  · rw [if_neg hany]
    unfold getProp
    rw [find?_append_other _ _ _ hne]

/-- Bumping a key holding an integer increments exactly that value. -/
theorem getProp_bump_self (acc : List (String × JsNum)) (k : String) (n : Int)
    (h : getProp acc k = some (JsNum.int n)) :
    getProp (bump acc k) k = some (JsNum.int (n + 1)) := by
  obtain ⟨e, hfind, hv⟩ : ∃ e, acc.find? (fun e => e.1 == k) = some e ∧
      e.2 = JsNum.int n := by
    unfold getProp at h
    cases hfind : acc.find? (fun e => e.1 == k) with
    | none => rw [hfind] at h; simp at h
    | some e => rw [hfind] at h; exact ⟨e, rfl, by simpa using h⟩
  have hek : (e.1 == k) = true := by simpa using List.find?_some hfind
  have hany : (acc.any fun e => e.1 == k) = true := by
    rw [List.any_eq_true]
    exact ⟨e, List.mem_of_find?_eq_some hfind, hek⟩
  unfold bump getProp
  rw [if_pos hany,
    find?_map_keyPres (fun e => if e.1 == k then (e.1, e.2.incr) else e)
      (fun e => by cases hc : (e.1 == k) <;> simp [hc]) acc k, hfind]
  have hek2 : e.1 = k := by simpa using hek
  simp [hek2, hv, JsNum.incr]

/-- One tally step adds the placement's indicator to any integer bucket. -/
theorem getProp_tallyStep (acc : List (String × JsNum)) (p : Placement)
    (k : String) (hk : k ≠ "") (n : Int)
    (h : getProp acc k = some (JsNum.int n)) :
    getProp (tallyStep acc p) k =
      some (JsNum.int (n + if p.water_needs == some k then 1 else 0)) := by
  unfold tallyStep
  cases hw : p.water_needs with
  | none => simpa using h
  | some s =>
    by_cases hs : s = ""
    · subst hs
      have : (some "" == some k) = false := by
        simpa using fun he => hk he.symm
      simpa [this] using h
    · simp only [hs, if_false]
      by_cases hsk : s = k
      · subst hsk
        rw [getProp_bump_self acc s n h]
        simp
      · rw [getProp_bump_ne acc s k (by simpa using hsk), h]
        simp [hsk]

/-- Folding the tally over placements accumulates, on any integer bucket,
exactly the count of placements tagged with that key. -/
theorem getProp_foldl_tally (ps : List Placement) (acc : List (String × JsNum))
    (k : String) (hk : k ≠ "") (n : Int)
    (h : getProp acc k = some (JsNum.int n)) :
    getProp (ps.foldl tallyStep acc) k =
      some (JsNum.int
        (n + (ps.countP (fun p => p.water_needs == some k) : Int))) := by
  induction ps generalizing acc n with
  | nil => simpa using h
  | cons p ps ih =>
    rw [List.foldl_cons, ih _ _ (getProp_tallyStep acc p k hk n h)]
    by_cases hp : (p.water_needs == some k) = true
    · simp only [List.countP_cons, hp, if_true]
      push_cast
      ring_nf
    · simp [List.countP_cons, hp]

/-- The low bucket is the count of placements with `water_needs = low`. -/
theorem getProp_low (ps : List Placement) :
    getProp (waterNeedsCounts ps) "low" =
      some (JsNum.int (ps.countP (fun p => p.water_needs == some "low"))) := by
  simpa using getProp_foldl_tally ps
    [("low", .int 0), ("medium", .int 0), ("high", .int 0)]
    "low" (by decide) 0 (by decide)

/-- The medium bucket is the count of placements with `water_needs = medium`. -/
theorem getProp_medium (ps : List Placement) :
    getProp (waterNeedsCounts ps) "medium" =
      some (JsNum.int (ps.countP (fun p => p.water_needs == some "medium"))) := by
  simpa using getProp_foldl_tally ps
    [("low", .int 0), ("medium", .int 0), ("high", .int 0)]
    "medium" (by decide) 0 (by decide)

/-- The high bucket is the count of placements with `water_needs = high`. -/
theorem getProp_high (ps : List Placement) :
    getProp (waterNeedsCounts ps) "high" =
      some (JsNum.int (ps.countP (fun p => p.water_needs == some "high"))) := by
  simpa using getProp_foldl_tally ps
    [("low", .int 0), ("medium", .int 0), ("high", .int 0)]
    "high" (by decide) 0 (by decide)

/-- C3: the water-conflict flag is true exactly when both the low and the
high bucket are non-empty; the medium bucket never matters. The spec
examples hold: `[high, low]` conflicts, `[high, high, medium]` does not. -/
theorem hasWaterConflict_spec :
    (∀ ps : List Placement,
      hasWaterConflict ps = true ↔
        0 < ps.countP (fun p => p.water_needs == some "low") ∧
        0 < ps.countP (fun p => p.water_needs == some "high")) ∧
    hasWaterConflict
      [⟨1, 1, "A", none, some "high", 0, 0⟩,
       ⟨2, 2, "B", none, some "low", 0, 1⟩] = true ∧
    hasWaterConflict
      [⟨1, 1, "A", none, some "high", 0, 0⟩,
       ⟨2, 2, "B", none, some "high", 1, 0⟩,
       ⟨3, 3, "C", none, some "medium", 1, 1⟩] = false := by
  refine ⟨fun ps => ?_, by decide, by decide⟩
  unfold hasWaterConflict
  rw [getProp_low, getProp_high]
  simp [jsMoreThanZero, JsNum.gtZero]

/-- With only recognized (or falsy, i.e. skipped) values the tally keeps its
exact three-entry shape and each bucket accumulates its own count. -/
theorem foldl_tally_recognized (ps : List Placement) (a b c : Int)
    (h : ∀ p ∈ ps, p.water_needs = none ∨ p.water_needs = some "" ∨
      p.water_needs = some "low" ∨ p.water_needs = some "medium" ∨
      p.water_needs = some "high") :
    ps.foldl tallyStep
        [("low", JsNum.int a), ("medium", JsNum.int b), ("high", JsNum.int c)] =
      [("low", JsNum.int
          (a + (ps.countP (fun p => p.water_needs == some "low") : Int))),
       ("medium", JsNum.int
          (b + (ps.countP (fun p => p.water_needs == some "medium") : Int))),
       ("high", JsNum.int
          (c + (ps.countP (fun p => p.water_needs == some "high") : Int)))] := by
  induction ps generalizing a b c with
  | nil => simp
  | cons p ps ih =>
    have htail := fun q hq => h q (List.mem_cons_of_mem p hq)
    rcases h p (List.mem_cons_self p ps) with h0 | h0 | h0 | h0 | h0
    · rw [List.foldl_cons, show tallyStep
          [("low", JsNum.int a), ("medium", JsNum.int b), ("high", JsNum.int c)] p =
          [("low", JsNum.int a), ("medium", JsNum.int b), ("high", JsNum.int c)]
          from by simp [tallyStep, h0], ih a b c htail]
      simp [List.countP_cons, h0]
    · rw [List.foldl_cons, show tallyStep
          [("low", JsNum.int a), ("medium", JsNum.int b), ("high", JsNum.int c)] p =
          [("low", JsNum.int a), ("medium", JsNum.int b), ("high", JsNum.int c)]
          from by simp [tallyStep, h0], ih a b c htail]
      simp [List.countP_cons, h0]
    · rw [List.foldl_cons, show tallyStep
          [("low", JsNum.int a), ("medium", JsNum.int b), ("high", JsNum.int c)] p =
          [("low", JsNum.int (a + 1)), ("medium", JsNum.int b),
           ("high", JsNum.int c)] from by simp [tallyStep, h0, bump, JsNum.incr],
        ih (a + 1) b c htail]
      simp [List.countP_cons, h0]
      ring_nf
    · rw [List.foldl_cons, show tallyStep
          [("low", JsNum.int a), ("medium", JsNum.int b), ("high", JsNum.int c)] p =
          [("low", JsNum.int a), ("medium", JsNum.int (b + 1)),
           ("high", JsNum.int c)] from by simp [tallyStep, h0, bump, JsNum.incr],
        ih a (b + 1) c htail]
      simp [List.countP_cons, h0]
      ring_nf
    · rw [List.foldl_cons, show tallyStep
          [("low", JsNum.int a), ("medium", JsNum.int b), ("high", JsNum.int c)] p =
          [("low", JsNum.int a), ("medium", JsNum.int b),
           ("high", JsNum.int (c + 1))] from by simp [tallyStep, h0, bump, JsNum.incr],
        ih a b (c + 1) htail]
      simp [List.countP_cons, h0]
      ring_nf

/-- C4 counterexample: a placement with the unrecognized truthy value
`very-high` reaches `waterNeedsCounts["very-high"]++`, which stores
`undefined + 1 = NaN` under a fourth key, so the tally object does not have
exactly the three buckets low/medium/high. -/
theorem waterNeedsCounts_extra_key :
    waterNeedsCounts [⟨1, 5, "Mystery", none, some "very-high", 0, 0⟩] =
      [("low", JsNum.int 0), ("medium", JsNum.int 0), ("high", JsNum.int 0),
       ("very-high", JsNum.nan)] ∧
    (waterNeedsCounts [⟨1, 5, "Mystery", none, some "very-high", 0, 0⟩]).length ≠ 3 := by
  exact ⟨by decide, by decide⟩

/-- C4 amended: each of the three buckets low/medium/high always equals the
number of placements whose `water_needs` equals that value, and unset
(`NULL`/empty, hence falsy) values are skipped without error; when every
placement's value is unset or recognized the tally is exactly the three
buckets. (An unrecognized truthy value still leaves the three buckets
unchanged and raises no error, but adds its own NaN-valued key, see the
counterexample.) -/
theorem waterNeedsCounts_buckets :
    (∀ ps : List Placement,
      getProp (waterNeedsCounts ps) "low" =
        some (JsNum.int (ps.countP (fun p => p.water_needs == some "low"))) ∧
      getProp (waterNeedsCounts ps) "medium" =
        some (JsNum.int (ps.countP (fun p => p.water_needs == some "medium"))) ∧
      getProp (waterNeedsCounts ps) "high" =
        some (JsNum.int (ps.countP (fun p => p.water_needs == some "high")))) ∧
    (∀ ps : List Placement,
      (∀ p ∈ ps, p.water_needs = none ∨ p.water_needs = some "" ∨
        p.water_needs = some "low" ∨ p.water_needs = some "medium" ∨
        p.water_needs = some "high") →
      waterNeedsCounts ps =
        [("low", JsNum.int (ps.countP (fun p => p.water_needs == some "low"))),
         ("medium", JsNum.int (ps.countP (fun p => p.water_needs == some "medium"))),
         ("high", JsNum.int (ps.countP (fun p => p.water_needs == some "high")))]) := by
  refine ⟨fun ps => ⟨getProp_low ps, getProp_medium ps, getProp_high ps⟩,
    fun ps h => ?_⟩
  simpa [waterNeedsCounts] using foldl_tally_recognized ps 0 0 0 h

/-- Witness for the amended C4 claim at a concrete placement list. -/
theorem waterNeedsCounts_buckets_witness :
    waterNeedsCounts
      [⟨1, 1, "A", none, some "high", 0, 0⟩,
       ⟨2, 2, "B", none, none, 0, 1⟩,
       ⟨3, 3, "C", none, some "low", 1, 0⟩] =
      [("low", JsNum.int 1), ("medium", JsNum.int 0), ("high", JsNum.int 1)] := by
  rw [waterNeedsCounts_buckets.2
    [⟨1, 1, "A", none, some "high", 0, 0⟩,
     ⟨2, 2, "B", none, none, 0, 1⟩,
     ⟨3, 3, "C", none, some "low", 1, 0⟩] (by decide)]
  decide

/-! ## Placement mutations (POST and PATCH /api/beds/:id/placements)

The POST handler validates cell bounds, then occupancy, and only then runs
the `INSERT`; the PATCH handler looks the placement up, runs bounds and
occupancy checks only when the request supplies **both** `row` and `col`,
and then runs `UPDATE ... COALESCE` with `.run(row, col, notes, id)`.
better-sqlite3 refuses to bind JavaScript `undefined`, so a PATCH body
missing `row`, `col` or `notes` makes the `UPDATE` throw a TypeError that
the handler's catch answers as a generic 500, with the row unchanged; with
all three bound the `COALESCE` takes the bound values. The stored `notes`
text is read by no claim and is not a field of `Placement`; for the move
only the presence of the `notes` binding is modelled. A body field is
modelled as supplied (`some`) or absent (`none`, i.e. `undefined`); JSON
`null`, which would bind as SQL NULL, is outside the modelled request
domain. -/

/-- Error kinds the placement mutations can reject a request with. -/
inductive PlacementError : Type
  | outOfBounds
  | cellOccupied
  | notFound
  deriving DecidableEq, Repr

/-- `POST /api/beds/:id/placements`: bounds check
(`row < 0 || row >= bed.rows || col < 0 || col >= bed.cols`), then occupancy
(`SELECT * FROM bed_placements WHERE bed_id = ? AND row = ? AND col = ?`),
then the `INSERT`. -/
def placePlacement (bed : Bed) (ps : List Placement) (newPl : Placement) :
    Except PlacementError (List Placement) :=
  if decide (newPl.row < 0) || decide (newPl.row ≥ bed.rows)
      || decide (newPl.col < 0) || decide (newPl.col ≥ bed.cols) then
    .error .outOfBounds
  else if ps.any (fun p => p.row == newPl.row && p.col == newPl.col) then
    .error .cellOccupied
  else
    .ok (ps ++ [newPl])

/-- The stored placement set after a place request (unchanged on error). -/
def placeResult (bed : Bed) (ps : List Placement) (newPl : Placement) :
    List Placement :=
  match placePlacement bed ps newPl with
  | .ok l => l
  | .error _ => ps

/-- C5: placing out of bounds fails with OutOfBounds, placing onto an
occupied cell fails with CellOccupied, and in both cases the stored
placement set is unchanged — an occupied cell is never overwritten. -/
theorem placePlacement_spec :
    ∀ (bed : Bed) (ps : List Placement) (newPl : Placement),
      (¬(0 ≤ newPl.row ∧ newPl.row < bed.rows ∧
          0 ≤ newPl.col ∧ newPl.col < bed.cols) →
        placePlacement bed ps newPl = .error .outOfBounds ∧
        placeResult bed ps newPl = ps) ∧
      ((0 ≤ newPl.row ∧ newPl.row < bed.rows ∧
          0 ≤ newPl.col ∧ newPl.col < bed.cols) →
        (∃ p ∈ ps, p.row = newPl.row ∧ p.col = newPl.col) →
        placePlacement bed ps newPl = .error .cellOccupied ∧
        placeResult bed ps newPl = ps) := by
  intro bed ps newPl
  constructor
  · intro h
    have hc : (decide (newPl.row < 0) || decide (newPl.row ≥ bed.rows)
        || decide (newPl.col < 0) || decide (newPl.col ≥ bed.cols)) = true := by
      simp only [Bool.or_eq_true, decide_eq_true_eq]
      omega
    constructor
    · unfold placePlacement
      rw [if_pos hc]
    · unfold placeResult placePlacement
      rw [if_pos hc]
  · intro hin hocc
    have hc : ¬(decide (newPl.row < 0) || decide (newPl.row ≥ bed.rows)
        || decide (newPl.col < 0) || decide (newPl.col ≥ bed.cols)) = true := by
      simp only [Bool.or_eq_true, decide_eq_true_eq]
      omega
    have ho : (ps.any fun p => p.row == newPl.row && p.col == newPl.col) = true := by
      rw [List.any_eq_true]
      obtain ⟨p, hp, hr, hcl⟩ := hocc
      exact ⟨p, hp, by simp [hr, hcl]⟩
    constructor
    · unfold placePlacement
      rw [if_neg hc, if_pos ho]
    · unfold placeResult placePlacement
      rw [if_neg hc, if_pos ho]

/-- Witness for C5 at concrete inputs: an out-of-bounds place and a place
onto an occupied cell in a 2 by 2 bed. -/
theorem placePlacement_spec_witness :
    placePlacement ⟨2, 2⟩ [] ⟨1, 1, "A", none, none, 5, 0⟩ =
      .error .outOfBounds ∧
    placePlacement ⟨2, 2⟩ [⟨1, 1, "A", none, none, 1, 1⟩]
        ⟨2, 2, "B", none, none, 1, 1⟩ =
      .error .cellOccupied := by
  refine ⟨((placePlacement_spec ⟨2, 2⟩ [] ⟨1, 1, "A", none, none, 5, 0⟩).1
      (by decide)).1, ?_⟩
  exact ((placePlacement_spec ⟨2, 2⟩ [⟨1, 1, "A", none, none, 1, 1⟩]
      ⟨2, 2, "B", none, none, 1, 1⟩).2 (by decide)
    ⟨⟨1, 1, "A", none, none, 1, 1⟩, by decide, by decide, by decide⟩).1

/-- Error kinds a move request can fail with: the three validation errors
plus the generic 500 produced when better-sqlite3 rejects an `undefined`
binding in the `UPDATE` (a TypeError the handler catches). -/
inductive MoveError : Type
  | notFound
  | outOfBounds
  | cellOccupied
  | bindingTypeError
  deriving DecidableEq, Repr

/-- `PATCH /api/beds/:id/placements/:placementId`: look the placement up;
only when the request supplies both `row` and `col`
(`row !== undefined && col !== undefined`) run the bounds check and the
occupancy check (excluding the moved placement's own id); then execute
`UPDATE ... SET row = COALESCE(?, row), col = COALESCE(?, col),
notes = COALESCE(?, notes)` via `.run(row, col, notes, placementId)`.
Any `undefined` among the bound body fields makes better-sqlite3 throw
before anything is written — so a request missing a coordinate reaches the
same binding failure right after the skipped checks, and a request missing
only `notes` reaches it after the checks pass; with all three bound the
`COALESCE` takes the bound values. -/
def movePlacement (bed : Bed) (ps : List Placement) (pid : Nat)
    (rowQ colQ : Option Int) (notesQ : Option String) :
    Except MoveError (List Placement) :=
  match ps.find? (fun p => p.id == pid) with
  | none => .error .notFound
  | some _ =>
    match rowQ, colQ with
    | some row, some col =>
      if decide (row < 0) || decide (row ≥ bed.rows)
          || decide (col < 0) || decide (col ≥ bed.cols) then
        .error .outOfBounds
      else if ps.any (fun p => p.row == row && p.col == col && !(p.id == pid)) then
        .error .cellOccupied
      else
        match notesQ with
        | some _ =>
          .ok (ps.map (fun p =>
            if p.id == pid then { p with row := row, col := col } else p))
        | none => .error .bindingTypeError
    | _, _ => .error .bindingTypeError

/-- The stored placement set after a move request (unchanged on error). -/
def moveResult (bed : Bed) (ps : List Placement) (pid : Nat)
    (rowQ colQ : Option Int) (notesQ : Option String) : List Placement :=
  match movePlacement bed ps pid rowQ colQ notesQ with
  | .ok l => l
  | .error _ => ps

/-- C6 counterexample: in a 1 by 1 bed, a move request supplying only
`row: 5` (col and notes absent) skips both checks — the guard
`row !== undefined && col !== undefined` is false — and then fails on the
`undefined` bindings of the `UPDATE` with the generic 500, not with
OutOfBounds, leaving the placement at (0,0): the bounds check is never
applied to this request even though its supplied target row is far out of
bounds. -/
theorem movePlacement_skips_partial_checks :
    movePlacement ⟨1, 1⟩ [⟨1, 1, "A", none, none, 0, 0⟩] 1 (some 5) none none =
      .error .bindingTypeError ∧
    movePlacement ⟨1, 1⟩ [⟨1, 1, "A", none, none, 0, 0⟩] 1 (some 5) none none ≠
      .error .outOfBounds ∧
    moveResult ⟨1, 1⟩ [⟨1, 1, "A", none, none, 0, 0⟩] 1 (some 5) none none =
      [⟨1, 1, "A", none, none, 0, 0⟩] := by
  have h1 : movePlacement ⟨1, 1⟩ [⟨1, 1, "A", none, none, 0, 0⟩] 1
      (some 5) none none = .error .bindingTypeError := rfl
  refine ⟨h1, ?_, rfl⟩
  rw [h1]
  simp

/-- C6 amended: for a move request on an existing placement that supplies
both a target row and a target col, the bounds check and the occupancy
check (excluding the moved placement's own id) run against the target cell
before any update, and on failure the placement set is unchanged. A
request omitting `row` or `col` skips both checks, but its `UPDATE` then
rejects the `undefined` binding, so it fails with the generic 500 and the
placement set is also unchanged — no coordinate is ever written
unchecked. -/
theorem movePlacement_checked_spec :
    (∀ (bed : Bed) (ps : List Placement) (pid : Nat) (row col : Int)
      (notesQ : Option String),
      (∃ q ∈ ps, q.id = pid) →
      (¬(0 ≤ row ∧ row < bed.rows ∧ 0 ≤ col ∧ col < bed.cols) →
        movePlacement bed ps pid (some row) (some col) notesQ =
          .error .outOfBounds ∧
        moveResult bed ps pid (some row) (some col) notesQ = ps) ∧
      ((0 ≤ row ∧ row < bed.rows ∧ 0 ≤ col ∧ col < bed.cols) →
        (∃ p ∈ ps, p.row = row ∧ p.col = col ∧ p.id ≠ pid) →
        movePlacement bed ps pid (some row) (some col) notesQ =
          .error .cellOccupied ∧
        moveResult bed ps pid (some row) (some col) notesQ = ps)) ∧
    (∀ (bed : Bed) (ps : List Placement) (pid : Nat)
      (rowQ colQ : Option Int) (notesQ : Option String),
      (∃ q ∈ ps, q.id = pid) →
      (rowQ = none ∨ colQ = none) →
      movePlacement bed ps pid rowQ colQ notesQ = .error .bindingTypeError ∧
      moveResult bed ps pid rowQ colQ notesQ = ps) := by
  constructor
  · intro bed ps pid row col notesQ hex
    obtain ⟨q, hq, hqid⟩ := hex
    have hfind : (ps.find? fun p => p.id == pid).isSome = true := by
      cases hf : ps.find? (fun p => p.id == pid) with
      | none =>
          exact absurd (by simpa using hqid)
            (by simpa using List.find?_eq_none.mp hf q hq)
      | some _ => rfl
    obtain ⟨w, hw⟩ := Option.isSome_iff_exists.mp hfind
    constructor
    · intro h
      have hc : (decide (row < 0) || decide (row ≥ bed.rows)
          || decide (col < 0) || decide (col ≥ bed.cols)) = true := by
        simp only [Bool.or_eq_true, decide_eq_true_eq]
        omega
      constructor
      · unfold movePlacement
        rw [hw]
        simp only [hc, if_true]
      · unfold moveResult movePlacement
        rw [hw]
        simp only [hc, if_true]
    · intro hin hocc
      have hc : ¬(decide (row < 0) || decide (row ≥ bed.rows)
          || decide (col < 0) || decide (col ≥ bed.cols)) = true := by
        simp only [Bool.or_eq_true, decide_eq_true_eq]
        omega
      have ho : (ps.any fun p => p.row == row && p.col == col && !(p.id == pid)) = true := by
        rw [List.any_eq_true]
        obtain ⟨p, hp, hr, hcl, hid⟩ := hocc
        exact ⟨p, hp, by simp [hr, hcl, hid]⟩
      constructor
      · unfold movePlacement
        rw [hw]
        simp [hc, ho]
      · unfold moveResult movePlacement
        rw [hw]
        simp [hc, ho]
  · intro bed ps pid rowQ colQ notesQ hex hnone
    obtain ⟨q, hq, hqid⟩ := hex
    have hfind : (ps.find? fun p => p.id == pid).isSome = true := by
      cases hf : ps.find? (fun p => p.id == pid) with
      | none =>
          exact absurd (by simpa using hqid)
            (by simpa using List.find?_eq_none.mp hf q hq)
      | some _ => rfl
    obtain ⟨w, hw⟩ := Option.isSome_iff_exists.mp hfind
    rcases hnone with h | h
    · subst h
      constructor
      · unfold movePlacement
        rw [hw]
      · unfold moveResult movePlacement
        rw [hw]
    · subst h
      cases rowQ with
      | none =>
          constructor
          · unfold movePlacement
            rw [hw]
          · unfold moveResult movePlacement
            rw [hw]
      | some r =>
          constructor
          · unfold movePlacement
            rw [hw]
          · unfold moveResult movePlacement
            rw [hw]

/-- Witness for the amended C6 claim: an out-of-bounds full move, a full
move onto another placement's cell, and a move omitting its row — all
rejected with the placement set unchanged. -/
theorem movePlacement_checked_spec_witness :
    movePlacement ⟨2, 2⟩ [⟨1, 1, "A", none, none, 0, 0⟩] 1 (some 5) (some 0)
        (some "x") = .error .outOfBounds ∧
    movePlacement ⟨2, 2⟩
        [⟨1, 1, "A", none, none, 0, 0⟩, ⟨2, 2, "B", none, none, 1, 1⟩]
        1 (some 1) (some 1) (some "x") = .error .cellOccupied ∧
    movePlacement ⟨1, 1⟩ [⟨1, 1, "A", none, none, 0, 0⟩] 1 none (some 0) none =
      .error .bindingTypeError := by
  refine ⟨((movePlacement_checked_spec.1 ⟨2, 2⟩ [⟨1, 1, "A", none, none, 0, 0⟩]
      1 5 0 (some "x") ⟨⟨1, 1, "A", none, none, 0, 0⟩, by decide, by decide⟩).1
      (by decide)).1, ?_, ?_⟩
  · exact ((movePlacement_checked_spec.1 ⟨2, 2⟩
      [⟨1, 1, "A", none, none, 0, 0⟩, ⟨2, 2, "B", none, none, 1, 1⟩]
      1 1 1 (some "x") ⟨⟨1, 1, "A", none, none, 0, 0⟩, by decide, by decide⟩).2
      (by decide)
      ⟨⟨2, 2, "B", none, none, 1, 1⟩, by decide, by decide, by decide, by decide⟩).1
  · exact (movePlacement_checked_spec.2 ⟨1, 1⟩ [⟨1, 1, "A", none, none, 0, 0⟩]
      1 none (some 0) none ⟨⟨1, 1, "A", none, none, 0, 0⟩, by decide, by decide⟩
      (Or.inl rfl)).1

/-! ## Window creation and the year calendar (POST /api/plants, GET /api/plants/calendar/year)

`insertWindows` inserts each supplied window with `start_day || 1` and
`end_day || 28` defaults and no validation of the month values. The calendar
route maps each watched plant-window row to an event (with
`wraps_year: startMonth > endMonth`) and groups events into a 12-entry
agenda whose month filter repeats the wrap/no-wrap disjunction. -/

/-- JavaScript `v || d` on a numeric field: `undefined` and `0` are falsy. -/
def jsOrInt (v : Option Int) (d : Int) : Int :=
  match v with
  | some n => if n = 0 then d else n
  | none => d

/-- One element of the `planting_windows` array of a create-plant request. -/
structure WindowInput where
  window_type : String
  start_month : Int
  start_day : Option Int
  end_month : Int
  end_day : Option Int
  deriving DecidableEq, Repr

/-- A stored `planting_windows` row. -/
structure WindowRow where
  plant_id : Nat
  window_type : String
  start_month : Int
  start_day : Int
  end_month : Int
  end_day : Int
  deriving DecidableEq, Repr

/-- The `insertWindows` transaction of `POST /api/plants`: insert every
supplied window, defaulting the days, validating nothing. -/
def insertWindows (plantId : Nat) (ws : List WindowInput) : List WindowRow :=
  ws.map (fun w =>
    ⟨plantId, w.window_type, w.start_month, jsOrInt w.start_day 1,
      w.end_month, jsOrInt w.end_day 28⟩)

/-- C8 counterexample: a window with start_month = 13 (out of 1..12) is
inserted as-is, and the window-membership computation evaluates it by the
ordinary wrap disjunction (13 > 2 wraps, so month 1 is in-window) instead
of failing — no InvalidInterval error exists anywhere in the code. -/
theorem insertWindows_accepts_invalid :
    insertWindows 1 [⟨"direct_sow", 13, none, 2, none⟩] =
      [⟨1, "direct_sow", 13, 1, 2, 28⟩] ∧
    isInWindow 13 2 1 = true ∧
    isInWindow 13 2 5 = false := by
  exact ⟨by decide, by decide, by decide⟩

/-- C8 amended: the code performs no month-range validation. Window
creation copies the supplied months verbatim (only the day fields get
`|| 1` and `|| 28` defaults), and the membership predicate applies the same
wrap/no-wrap disjunction to any integer months, e.g. window(13,2) is
in-window exactly for months `m >= 13` or `m <= 2`. -/
theorem insertWindows_no_validation :
    (∀ (plantId : Nat) (ws : List WindowInput),
      (insertWindows plantId ws).length = ws.length ∧
      (insertWindows plantId ws).map (fun w => (w.start_month, w.end_month)) =
        ws.map (fun w => (w.start_month, w.end_month))) ∧
    (∀ m : Int, isInWindow 13 2 m = true ↔ m ≥ 13 ∨ m ≤ 2) := by
  constructor
  · intro plantId ws
    constructor
    · simp [insertWindows]
    · simp [insertWindows]
  · intro m
    unfold isInWindow
    simp

/-- Display name of a plant: `name` or `` `name (variety)` `` when the
variety is truthy. -/
def displayName (name : String) (variety : Option String) : String :=
  match variety with
  | some v => if v = "" then name else name ++ " (" ++ v ++ ")"
  | none => name

/-- JavaScript `str.replace('_', ' ')` replaces only the first occurrence. -/
def replaceFirstUnderscoreAux : List Char → List Char
  | [] => []
  | c :: cs => if c = '_' then ' ' :: cs else c :: replaceFirstUnderscoreAux cs

def replaceFirstUnderscore (s : String) : String :=
  ⟨replaceFirstUnderscoreAux s.data⟩

/-- A watched plant joined with one of its planting windows, as the
calendar query loads it. -/
structure PlantWindowRow where
  id : Nat
  name : String
  variety : Option String
  category : Option String
  days_to_maturity : Option Int
  window_type : String
  start_month : Int
  start_day : Option Int
  end_month : Int
  end_day : Option Int
  deriving DecidableEq, Repr

/-- One entry of the calendar `events` array. -/
structure CalendarEvent where
  plant_id : Nat
  plant_name : String
  category : Option String
  window_type : String
  start_month : Int
  start_day : Int
  end_month : Int
  end_day : Int
  wraps_year : Bool
  days_to_maturity : Option Int
  label : String
  deriving DecidableEq, Repr

/-- The event object pushed for one plant-window row. -/
def mkEvent (p : PlantWindowRow) : CalendarEvent :=
  { plant_id := p.id
    plant_name := displayName p.name p.variety
    category := p.category
    window_type := p.window_type
    start_month := p.start_month
    start_day := jsOrInt p.start_day 1
    end_month := p.end_month
    end_day := jsOrInt p.end_day 28
    wraps_year := decide (p.start_month > p.end_month)
    days_to_maturity := p.days_to_maturity
    label := displayName p.name p.variety ++ " - "
      ++ replaceFirstUnderscore p.window_type }

/-- The calendar `events` array. -/
def calendarEvents (rows : List PlantWindowRow) : List CalendarEvent :=
  rows.map mkEvent

/-- `monthNames` of the calendar route (index 0 unused). -/
def monthNames : List String :=
  ["", "Jan", "Feb", "Mar", "Apr", "May", "Jun", "Jul", "Aug", "Sep", "Oct",
   "Nov", "Dec"]

/-- One month's entry of the agenda object. -/
structure AgendaEntry where
  month : Int
  name : String
  events : List CalendarEvent
  deriving DecidableEq, Repr, Inhabited

/-- The month filter of the agenda loop:
wrapping events use `month >= start || month <= end`, others
`month >= start && month <= end`. -/
def agendaKeeps (m : Int) (e : CalendarEvent) : Bool :=
  if e.wraps_year then
    decide (m ≥ e.start_month) || decide (m ≤ e.end_month)
  else
    decide (m ≥ e.start_month) && decide (m ≤ e.end_month)

/-- The 12-entry agenda built by `for (let month = 1; month <= 12; ...)`. -/
def agenda (evs : List CalendarEvent) : List AgendaEntry :=
  (List.range 12).map (fun (i : Nat) =>
    { month := (i + 1 : Int)
      name := monthNames.getD (i + 1) ""
      events := evs.filter (agendaKeeps (i + 1 : Int)) })

/-- The agenda's month filter agrees with the plant-now window predicate on
any event whose `wraps_year` flag matches its months. -/
theorem agendaKeeps_eq_isInWindow (e : CalendarEvent)
    (hw : e.wraps_year = decide (e.start_month > e.end_month)) (m : Int) :
    agendaKeeps m e = isInWindow e.start_month e.end_month m := by
  unfold agendaKeeps isInWindow
  rw [hw]
  by_cases h : e.start_month > e.end_month
  · simp [h, not_le.mpr h]
  · simp [h, not_lt.mp h]

/-- C7: the agenda has exactly 12 entries keyed 1..12; a month's event list
holds exactly the events of the watched windows whose window-membership
predicate accepts that month (same wrap/no-wrap disjunction as plant-now);
an event wraps iff its start month exceeds its end month; and a wrapping
11-1 window lands in agenda months 11, 12 and 1 only. -/
theorem agenda_spec :
    (∀ rows : List PlantWindowRow,
      (agenda (calendarEvents rows)).length = 12 ∧
      (agenda (calendarEvents rows)).map (fun en => en.month) =
        [1, 2, 3, 4, 5, 6, 7, 8, 9, 10, 11, 12] ∧
      (∀ (i : Fin (agenda (calendarEvents rows)).length) (e : CalendarEvent),
        e ∈ ((agenda (calendarEvents rows)).get i).events ↔
          e ∈ calendarEvents rows ∧
            isInWindow e.start_month e.end_month
              ((agenda (calendarEvents rows)).get i).month = true) ∧
      (∀ row : PlantWindowRow,
        (mkEvent row).wraps_year = decide (row.start_month > row.end_month))) ∧
    ((agenda (calendarEvents
        [⟨7, "Garlic", none, some "vegetable", some 240, "direct_sow",
          11, none, 1, none⟩])).map (fun en => en.events.length) =
      [1, 0, 0, 0, 0, 0, 0, 0, 0, 0, 1, 1]) := by
  constructor
  · intro rows
    have hlen : (agenda (calendarEvents rows)).length = 12 := by
      unfold agenda
      rw [List.length_map, List.length_range]
    refine ⟨hlen, ?_, ?_, fun row => rfl⟩
    · unfold agenda
      simp [List.range_succ, Function.comp]
    · intro i e
      have hget : (agenda (calendarEvents rows)).get i =
          { month := (i.val + 1 : Int)
            name := monthNames.getD (i.val + 1) ""
            events := (calendarEvents rows).filter
              (agendaKeeps (i.val + 1 : Int)) } := by
        unfold agenda
        simp
      rw [hget]
      simp only [List.mem_filter]
      constructor
      · rintro ⟨he, hk⟩
        refine ⟨he, ?_⟩
        obtain ⟨row, hrow, rfl⟩ := List.mem_map.mp he
        rw [← agendaKeeps_eq_isInWindow _ rfl]
        exact hk
      · rintro ⟨he, hk⟩
        refine ⟨he, ?_⟩
        obtain ⟨row, hrow, rfl⟩ := List.mem_map.mp he
        rw [agendaKeeps_eq_isInWindow _ rfl]
        exact hk
  · decide

/-! ## Companion-relationship lookup symmetry -/

/-- `find?` is determined by the pointwise behaviour of its predicate. -/
theorem find?_congr_pred {α : Type} (p q : α → Bool) (l : List α)
    (h : ∀ a, p a = q a) : l.find? p = l.find? q := by
  induction l with
  | nil => rfl
  | cons x xs ih => rw [List.find?_cons, List.find?_cons, h x, ih]

/-- The relationship consulted for a pair of placements is looked up by the
placements' generic plant names only (`p1.plant_name`, `p2.plant_name`). -/
def placementRelationship (rels : List Relationship) (p q : Placement) :
    Option Relationship :=
  lookupRelationship rels p.plant_name q.plant_name

/-- C9: the companion lookup is symmetric — `(a, b)` and `(b, a)` retrieve
the same stored relationship whichever order the pair was stored in — and
it depends only on generic names: changing the varieties of the two
placements never changes the looked-up relationship. -/
theorem lookupRelationship_symm_variety :
    (∀ (rels : List Relationship) (a b : String),
      lookupRelationship rels a b = lookupRelationship rels b a) ∧
    (∀ (rels : List Relationship) (p q : Placement) (v w : Option String),
      placementRelationship rels
          { p with plant_variety := v } { q with plant_variety := w } =
        placementRelationship rels p q) := by
  constructor
  · intro rels a b
    unfold lookupRelationship
    exact find?_congr_pred _ _ _ (fun r => Bool.or_comm _ _)
  · intro rels p q v w
    rfl

/-! ## Companion-check neighborhood (GET /api/beds/:id/companion-check)

The adjacency SQL of the advisory check is
`ABS(bp.row - ?) <= 1 AND ABS(bp.col - ?) <= 1` — with no exclusion of the
target cell itself and no `bp.id != ?` clause, unlike both the analysis
adjacency (which rules out the same cell) and the post-insert warning query
(which excludes the new placement's id). Every returned neighbor is then
classified into good/bad/neutral buckets. -/

/-- The `adjacentPlacements` query of the companion-check route. -/
def adjacentForCheck (ps : List Placement) (row col : Int) : List Placement :=
  ps.filter (fun bp =>
    decide ((bp.row - row).natAbs ≤ 1) && decide ((bp.col - col).natAbs ≤ 1))

/-- The info object pushed for one adjacent placement. -/
structure AdjInfo where
  plant : String
  row : Int
  col : Int
  notes : Option String
  deriving DecidableEq, Repr

/-- JavaScript `v || null` on a nullable string: empty string becomes null. -/
def jsOrNull (v : Option String) : Option String :=
  match v with
  | some str => if str = "" then none else some str
  | none => none

/-- `{ plant, position, notes: relationship?.notes || null }`. -/
def adjInfo (adj : Placement) (rel : Option Relationship) : AdjInfo :=
  ⟨displayName adj.plant_name adj.plant_variety, adj.row, adj.col,
    jsOrNull (rel.bind (fun r => r.notes))⟩

/-- The three classification buckets of `adjacent_analysis`. -/
structure AdjBuckets where
  good : List AdjInfo
  bad : List AdjInfo
  neutral : List AdjInfo
  deriving DecidableEq, Repr

/-- `companions[relationship.relationship].push(info)`: a stored tag other
than the three bucket names would be a JavaScript TypeError
(`undefined.push`), modelled as `none`. -/
def pushBucket (b : AdjBuckets) (tag : String) (info : AdjInfo) :
    Option AdjBuckets :=
  if tag = "good" then some { b with good := b.good ++ [info] }
  else if tag = "bad" then some { b with bad := b.bad ++ [info] }
  else if tag = "neutral" then some { b with neutral := b.neutral ++ [info] }
  else none

/-- One iteration of the classification loop: look the pair up by the
candidate's and the neighbor's generic names; no stored relationship means
the neutral bucket. -/
def classifyStep (rels : List Relationship) (candName : String)
    (b : AdjBuckets) (adj : Placement) : Option AdjBuckets :=
  match lookupRelationship rels candName adj.plant_name with
  | some r => pushBucket b r.relationship (adjInfo adj (some r))
  | none => some { b with neutral := b.neutral ++ [adjInfo adj none] }

/-- The classification loop over the adjacent placements. -/
def adjacentAnalysisAux (rels : List Relationship) (candName : String) :
    AdjBuckets → List Placement → Option AdjBuckets
  | b, [] => some b
  | b, adj :: rest =>
    match classifyStep rels candName b adj with
    | some b2 => adjacentAnalysisAux rels candName b2 rest
    | none => none

/-- The `adjacent_analysis` object of the companion-check response. -/
def adjacentAnalysis (rels : List Relationship) (candName : String)
    (adjs : List Placement) : Option AdjBuckets :=
  adjacentAnalysisAux rels candName ⟨[], [], []⟩ adjs

/-- All classified infos, in their three buckets. -/
def bucketAll (b : AdjBuckets) : List AdjInfo :=
  b.good ++ b.bad ++ b.neutral

/-- A classification step only appends: bucket contents are preserved. -/
theorem classifyStep_subset (rels : List Relationship) (candName : String)
    (b b2 : AdjBuckets) (adj : Placement)
    (h : classifyStep rels candName b adj = some b2) :
    ∀ x ∈ bucketAll b, x ∈ bucketAll b2 := by
  intro x hx
  cases hl : lookupRelationship rels candName adj.plant_name with
  | none =>
      simp only [classifyStep, hl] at h
      injection h with h2
      subst h2
      simp only [bucketAll, List.mem_append] at hx ⊢
      tauto
  | some r =>
      simp only [classifyStep, hl, pushBucket] at h
      split at h
      · injection h with h2
        subst h2
        simp only [bucketAll, List.mem_append] at hx ⊢
        tauto
      · split at h
        · injection h with h2
          subst h2
          simp only [bucketAll, List.mem_append] at hx ⊢
          tauto
        · split at h
          · injection h with h2
            subst h2
            simp only [bucketAll, List.mem_append] at hx ⊢
            tauto
          · exact Option.noConfusion h

/-- A classification step puts the classified neighbor's info into one of
the buckets. -/
theorem classifyStep_mem_self (rels : List Relationship) (candName : String)
    (b b2 : AdjBuckets) (adj : Placement)
    (h : classifyStep rels candName b adj = some b2) :
    adjInfo adj (lookupRelationship rels candName adj.plant_name) ∈
      bucketAll b2 := by
  cases hl : lookupRelationship rels candName adj.plant_name with
  | none =>
      simp only [classifyStep, hl] at h
      injection h with h2
      subst h2
      simp [bucketAll]
  | some r =>
      simp only [classifyStep, hl, pushBucket] at h
      split at h
      · injection h with h2
        subst h2
        simp [bucketAll]
      · split at h
        · injection h with h2
          subst h2
          simp [bucketAll]
        · split at h
          · injection h with h2
            subst h2
            simp [bucketAll]
          · exact Option.noConfusion h

/-- When the classification loop completes, it has classified every
neighbor: each neighbor's info is in some bucket of the result. -/
theorem adjacentAnalysisAux_mem (rels : List Relationship) (candName : String) :
    ∀ (adjs : List Placement) (b0 b : AdjBuckets),
      adjacentAnalysisAux rels candName b0 adjs = some b →
      (∀ x ∈ bucketAll b0, x ∈ bucketAll b) ∧
      (∀ adj ∈ adjs,
        adjInfo adj (lookupRelationship rels candName adj.plant_name) ∈
          bucketAll b) := by
  intro adjs
  induction adjs with
  | nil =>
      intro b0 b h
      simp only [adjacentAnalysisAux] at h
      injection h with h2
      subst h2
      exact ⟨fun x hx => hx, by simp⟩
  | cons adj rest ih =>
      intro b0 b h
      simp only [adjacentAnalysisAux] at h
      cases hstep : classifyStep rels candName b0 adj with
      | none =>
          rw [hstep] at h
          exact Option.noConfusion h
      | some b2 =>
          rw [hstep] at h
          obtain ⟨hsub, hmem⟩ := ih b2 b h
          refine ⟨fun x hx =>
            hsub x (classifyStep_subset rels candName b0 b2 adj hstep x hx), ?_⟩
          intro a ha
          rcases List.mem_cons.mp ha with rfl | ha2
          · exact hsub _ (classifyStep_mem_self rels candName b0 b2 a hstep)
          · exact hmem a ha2

/-- C10: the companion-check neighborhood keeps distance zero: an occupant
of exactly the queried cell passes the `|Δrow| <= 1 ∧ |Δcol| <= 1` filter,
so it is returned among the adjacent placements and, whenever the
classification completes, its info lands in one of the good/bad/neutral
buckets — unlike the analysis adjacency, which is false for the same cell. -/
theorem companionCheck_includes_target :
    ∀ (rels : List Relationship) (ps : List Placement) (candName : String)
      (row col : Int) (p : Placement),
      p ∈ ps → p.row = row → p.col = col →
      p ∈ adjacentForCheck ps row col ∧
      (∀ q : Placement, q.row = row → q.col = col → isAdjacent p q = false) ∧
      (∀ b : AdjBuckets,
        adjacentAnalysis rels candName (adjacentForCheck ps row col) = some b →
        adjInfo p (lookupRelationship rels candName p.plant_name) ∈
          bucketAll b) := by
  intro rels ps candName row col p hp hr hc
  have hfil : p ∈ adjacentForCheck ps row col := by
    unfold adjacentForCheck
    rw [List.mem_filter]
    exact ⟨hp, by simp [hr, hc]⟩
  refine ⟨hfil, fun q hqr hqc => ?_, fun b hb => ?_⟩
  · unfold isAdjacent
    simp [hr, hc, hqr, hqc]
  · exact (adjacentAnalysisAux_mem rels candName
      (adjacentForCheck ps row col) ⟨[], [], []⟩ b hb).2 p hfil

/-- Witness for C10: a bed whose only placement sits exactly at the queried
cell (2,3); the occupant is in the check's adjacency list although the
analysis adjacency rejects the same-cell pair. -/
theorem companionCheck_includes_target_witness :
    (⟨5, 9, "Basil", none, none, 2, 3⟩ : Placement) ∈
      adjacentForCheck [⟨5, 9, "Basil", none, none, 2, 3⟩] 2 3 ∧
    isAdjacent ⟨5, 9, "Basil", none, none, 2, 3⟩
      ⟨5, 9, "Basil", none, none, 2, 3⟩ = false := by
  have h := companionCheck_includes_target [] [⟨5, 9, "Basil", none, none, 2, 3⟩]
    "Tomato" 2 3 ⟨5, 9, "Basil", none, none, 2, 3⟩ (by decide) rfl rfl
  exact ⟨h.1, h.2.1 ⟨5, 9, "Basil", none, none, 2, 3⟩ rfl rfl⟩

end Garden
